import Mathlib

/-!
Verification of the neuralhydrology tutorial notebooks: the GRU model adapter
(`01-New-Models`, shallow-embedded below as `GRU.init` / `GRU.forward` /
`get_model`) and the CAMELS-CL dataset adapter (`03-Adding-Datasets`,
embedded as `load_camels_cl_timeseries` / `load_camels_cl_attributes` /
`CamelsCL.load_attributes`).  Tensors are lists of lists of rationals,
dataframes are column-oriented tables of cells, and the file system is an
explicit `World` value threaded through the loaders together with a trace of
the read operations they attempt.
-/

/-- Run configuration fields consumed by the two adapters
(`neuralhydrology.utils.config.Config`). -/
structure Config where
  dynamic_inputs : List String
  static_inputs : List String
  hydroatlas_attributes : List String
  camels_attributes : List String
  use_basin_id_encoding : Bool
  number_of_basins : Nat
  head : String
  hidden_size : Nat
  output_dropout : ℚ
  model : String
  use_frequencies : List String
  data_dir : String
deriving DecidableEq

/-- The configuration-derived hyperparameters fixed by `GRU.__init__`:
the recurrent cell's input width and hidden width, and the dropout
probability.  The torch modules themselves are external. -/
structure GRUModel where
  input_size : Nat
  hidden_size : Nat
  dropout_p : ℚ
deriving DecidableEq

/-- Shallow embedding of `GRU.__init__` from the model tutorial:
`input_size = len(cfg.dynamic_inputs + cfg.static_inputs +
cfg.hydroatlas_attributes + cfg.camels_attributes)`, incremented by
`cfg.number_of_basins` when `cfg.use_basin_id_encoding`, and by 1 when
`cfg.head.lower() == "umal"`. -/
def GRU.init (cfg : Config) : GRUModel :=
  let input_size :=
    (cfg.dynamic_inputs ++ cfg.static_inputs ++ cfg.hydroatlas_attributes
      ++ cfg.camels_attributes).length
  let input_size :=
    if cfg.use_basin_id_encoding then input_size + cfg.number_of_basins else input_size
  let input_size :=
    if cfg.head.toLower = "umal" then input_size + 1 else input_size
  { input_size := input_size
    hidden_size := cfg.hidden_size
    dropout_p := cfg.output_dropout }

/-- The two kinds of exception `get_model` raises. -/
inductive GetModelError where
  | valueError (msg : String)
  | notImplemented (msg : String)
deriving DecidableEq

/-- The model instances `get_model` can construct.  Only the GRU's
constructor lives in this repository; the other six models are external and
are represented by bare tags. -/
inductive ModelInst where
  | cudalstm
  | ealstm
  | lstm
  | gru (m : GRUModel)
  | embcudalstm
  | mtslstm
  | odelstm
deriving DecidableEq

/-- Shallow embedding of `neuralhydrology.modelzoo.get_model` as printed in
the tutorial.  The module-level constant `SINGLE_FREQ_MODELS` is not part of
this repository, so it is taken as the parameter `single_freq_models`. -/
def get_model (single_freq_models : List String) (cfg : Config) :
    Except GetModelError ModelInst :=
  if cfg.model ∈ single_freq_models ∧ 1 < cfg.use_frequencies.length then
    .error (.valueError ("Model " ++ cfg.model ++ " does not support multiple frequencies."))
  else if cfg.model = "cudalstm" then .ok .cudalstm
  else if cfg.model = "ealstm" then .ok .ealstm
  else if cfg.model = "lstm" then .ok .lstm
  else if cfg.model = "gru" then .ok (.gru (GRU.init cfg))
  else if cfg.model = "embcudalstm" then .ok .embcudalstm
  else if cfg.model = "mtslstm" then .ok .mtslstm
  else if cfg.model = "odelstm" then .ok .odelstm
  else .error (.notImplemented (cfg.model ++ " not implemented or not linked in `get_model()`"))

/-- C1: for every configuration, the input width of the recurrent cell built
by `GRU.__init__` equals |dynamic| + |static| + |hydroatlas| + |camels|,
plus `number_of_basins` when basin-id encoding is enabled, plus 1 exactly
when the head name matches "umal" case-insensitively. -/
theorem gru_input_size_eq (cfg : Config) :
    (GRU.init cfg).input_size =
      cfg.dynamic_inputs.length + cfg.static_inputs.length
        + cfg.hydroatlas_attributes.length + cfg.camels_attributes.length
        + (if cfg.use_basin_id_encoding then cfg.number_of_basins else 0)
        + (if cfg.head.toLower = "umal" then 1 else 0) := by
  simp only [GRU.init, List.length_append]
  by_cases hb : cfg.use_basin_id_encoding <;>
    by_cases hh : cfg.head.toLower = "umal" <;>
      simp [hb, hh]

/-- C7: a configuration naming a single-frequency-only model together with
more than one entry in `use_frequencies` makes `get_model` raise the
multi-frequency `ValueError`; no model instance is constructed. -/
theorem get_model_multi_freq_error (single_freq_models : List String) (cfg : Config)
    (hm : cfg.model ∈ single_freq_models) (hf : 1 < cfg.use_frequencies.length) :
    get_model single_freq_models cfg =
      .error (.valueError ("Model " ++ cfg.model ++ " does not support multiple frequencies."))
    ∧ ∀ m : ModelInst, get_model single_freq_models cfg ≠ .ok m := by
  have h : get_model single_freq_models cfg =
      .error (.valueError ("Model " ++ cfg.model ++ " does not support multiple frequencies.")) := by
    unfold get_model
    rw [if_pos ⟨hm, hf⟩]
  exact ⟨h, fun m hc => by rw [h] at hc; exact Except.noConfusion hc⟩

/-- Witness for C7 at a concrete configuration: the GRU invoked with two
frequencies. -/
theorem get_model_multi_freq_error_witness :
    get_model ["gru"]
        { dynamic_inputs := ["p"], static_inputs := [], hydroatlas_attributes := []
          camels_attributes := [], use_basin_id_encoding := false, number_of_basins := 0
          head := "regression", hidden_size := 8, output_dropout := 0
          model := "gru", use_frequencies := ["1D", "1H"], data_dir := "data" } =
      .error (.valueError "Model gru does not support multiple frequencies.") := by
  exact (get_model_multi_freq_error ["gru"] _ (by decide) (by decide)).1

/-- A feature vector (innermost tensor axis). -/
abbrev Vec := List ℚ

/-- A 2-D tensor, e.g. `x_s : [batch, features]`. -/
abbrev Mat := List Vec

/-- A 3-D tensor, e.g. `x_d : [batch, time, features]`. -/
abbrev Ten3 := List Mat

/-- `tensor.transpose(0, 1)`: swap the two leading axes.  For a well-shaped
(rectangular, nonempty) tensor this is exactly torch's transpose. -/
def tTranspose01 (x : Ten3) : Ten3 :=
  (List.range (x.headD []).length).map fun i => x.map fun r => r.getD i []

/-- `m.unsqueeze(0).repeat(n, 1, 1)`: broadcast a 2-D tensor across a new
leading axis of size `n`. -/
def tRepeat (n : Nat) (m : Mat) : Ten3 := List.replicate n m

/-- `torch.cat([a, b], dim=-1)` for 3-D tensors: pointwise concatenation on
the innermost (feature) axis. -/
def tCatLast (a b : Ten3) : Ten3 :=
  List.zipWith (fun p q => List.zipWith (fun u v => u ++ v) p q) a b

/-- The input-concatenation stage of `GRU.forward`: transpose `x_d` to
`[seq_length, batch, features]`, then, mirroring the `if/elif/elif/else`
over the presence of `x_s` and `x_one_hot` in `data`, broadcast each present
2-D tensor over the time axis and concatenate on the feature axis in the
order dynamic, static, one-hot. -/
def concatInputs (data_x_d : Ten3) (x_s x_one_hot : Option Mat) : Ten3 :=
  let x_d := tTranspose01 data_x_d
  match x_s, x_one_hot with
  | some s, some o =>
      tCatLast (tCatLast x_d (tRepeat x_d.length s)) (tRepeat x_d.length o)
  | some s, none => tCatLast x_d (tRepeat x_d.length s)
  | none, some o => tCatLast x_d (tRepeat x_d.length o)
  | none, none => x_d

theorem length_tTranspose01 (x : Ten3) :
    (tTranspose01 x).length = (x.headD []).length := by
  simp [tTranspose01]

theorem headD_length_of_rect (x : Ten3) (B T : ℕ) (hB : x.length = B) (hpos : 0 < B)
    (hrect : ∀ r ∈ x, r.length = T) : (x.headD []).length = T := by
  cases x with
  | nil => simp at hB; omega
  | cons r tl => exact hrect r (List.mem_cons_self _ _)

theorem transpose01_getD (x : Ten3) (t b : ℕ) (hb : b < x.length)
    (ht : t < (x.headD []).length) :
    ((tTranspose01 x).getD t []).getD b [] = (x.getD b []).getD t [] := by
  have hlen : t < (tTranspose01 x).length := by
    rw [length_tTranspose01]; exact ht
  rw [List.getD_eq_getElem _ _ hlen]
  have h1 : (tTranspose01 x)[t] = x.map fun r => r.getD t [] := by
    simp [tTranspose01]
  rw [h1]
  have hb2 : b < (x.map fun r => r.getD t []).length := by simpa using hb
  rw [List.getD_eq_getElem _ _ hb2, List.getElem_map, List.getD_eq_getElem _ _ hb]

theorem getD_tRepeat (n : ℕ) (m : Mat) (t : ℕ) (ht : t < n) :
    (tRepeat n m).getD t [] = m := by
  have h : t < (tRepeat n m).length := by simpa [tRepeat]
  rw [List.getD_eq_getElem _ _ h]
  simp [tRepeat]

theorem tCatLast_getD (a b : Ten3) (t i : ℕ) (ht1 : t < a.length) (ht2 : t < b.length)
    (hi1 : i < (a.getD t []).length) (hi2 : i < (b.getD t []).length) :
    ((tCatLast a b).getD t []).getD i [] =
      ((a.getD t []).getD i []) ++ ((b.getD t []).getD i []) := by
  have hta : a.getD t [] = a[t] := List.getD_eq_getElem _ _ ht1
  have htb : b.getD t [] = b[t] := List.getD_eq_getElem _ _ ht2
  have ht : t < (tCatLast a b).length := by
    simp only [tCatLast, List.length_zipWith]
    exact lt_min ht1 ht2
  rw [List.getD_eq_getElem _ _ ht]
  have h1 : (tCatLast a b)[t] = List.zipWith (fun u v => u ++ v) a[t] b[t] := by
    simp [tCatLast]
  rw [h1]
  rw [hta] at hi1
  rw [htb] at hi2
  have hi : i < (List.zipWith (fun u v : Vec => u ++ v) a[t] b[t]).length := by
    simp only [List.length_zipWith]
    exact lt_min hi1 hi2
  rw [List.getD_eq_getElem _ _ hi, List.getElem_zipWith, hta, htb,
    List.getD_eq_getElem _ _ hi1, List.getD_eq_getElem _ _ hi2]

/-- C2: the forward transformation concatenates the present inputs on the
feature axis in the fixed order dynamic, static, one-hot, broadcasting `x_s`
and `x_one_hot` across the time axis; with neither present, `x_d` is used
alone.  Stated uniformly over all four presence cases: at every timestep `t`
and batch element `b`, the concatenated feature vector is `x_d`'s features
followed by the static features (if present) followed by the one-hot
encoding (if present). -/
theorem gru_forward_concat_order (x_d : Ten3) (x_s x_one_hot : Option Mat) (B T : ℕ)
    (hB : x_d.length = B) (hrect : ∀ r ∈ x_d, r.length = T)
    (hs : ∀ s, x_s = some s → s.length = B)
    (ho : ∀ o, x_one_hot = some o → o.length = B)
    (t b : ℕ) (ht : t < T) (hb : b < B) :
    ((concatInputs x_d x_s x_one_hot).getD t []).getD b [] =
      ((x_d.getD b []).getD t [])
        ++ (x_s.elim [] fun s => s.getD b [])
        ++ (x_one_hot.elim [] fun o => o.getD b []) := by
  have hpos : 0 < B := Nat.lt_of_le_of_lt (Nat.zero_le b) hb
  have hhead : (x_d.headD []).length = T := headD_length_of_rect x_d B T hB hpos hrect
  have hbx : b < x_d.length := by rw [hB]; exact hb
  have htx : t < (x_d.headD []).length := by rw [hhead]; exact ht
  have hTlen : (tTranspose01 x_d).length = T := by rw [length_tTranspose01, hhead]
  have htT : t < (tTranspose01 x_d).length := by rw [hTlen]; exact ht
  have hsliceT : ((tTranspose01 x_d).getD t []).length = B := by
    rw [List.getD_eq_getElem _ _ htT]
    simp [tTranspose01, hB]
  rcases x_s with _ | s
  · rcases x_one_hot with _ | o
    · simp only [concatInputs, Option.elim]
      rw [transpose01_getD x_d t b hbx htx]
      simp
    · have hoB : o.length = B := ho o rfl
      simp only [concatInputs, Option.elim]
      rw [tCatLast_getD _ _ t b htT (by rw [tRepeat, List.length_replicate]; exact htT)
        (by rw [hsliceT]; exact hb)
        (by rw [getD_tRepeat _ _ t htT, hoB]; exact hb)]
      rw [transpose01_getD x_d t b hbx htx, getD_tRepeat _ _ t htT]
      simp
  · have hsB : s.length = B := hs s rfl
    rcases x_one_hot with _ | o
    · simp only [concatInputs, Option.elim]
      rw [tCatLast_getD _ _ t b htT (by rw [tRepeat, List.length_replicate]; exact htT)
        (by rw [hsliceT]; exact hb)
        (by rw [getD_tRepeat _ _ t htT, hsB]; exact hb)]
      rw [transpose01_getD x_d t b hbx htx, getD_tRepeat _ _ t htT]
      simp
    · have hoB : o.length = B := ho o rfl
      simp only [concatInputs, Option.elim]
      have hinner :
          t < (tCatLast (tTranspose01 x_d) (tRepeat (tTranspose01 x_d).length s)).length := by
        simp only [tCatLast, List.length_zipWith, tRepeat, List.length_replicate, min_self]
        exact htT
      have hinnerD :
          ((tCatLast (tTranspose01 x_d) (tRepeat (tTranspose01 x_d).length s)).getD t []).getD b [] =
            ((tTranspose01 x_d).getD t []).getD b [] ++ s.getD b [] := by
        rw [tCatLast_getD _ _ t b htT (by rw [tRepeat, List.length_replicate]; exact htT)
          (by rw [hsliceT]; exact hb)
          (by rw [getD_tRepeat _ _ t htT, hsB]; exact hb)]
        rw [getD_tRepeat _ _ t htT]
      have hinnerLen :
          ((tCatLast (tTranspose01 x_d) (tRepeat (tTranspose01 x_d).length s)).getD t []).length =
            B := by
        rw [List.getD_eq_getElem _ _ hinner]
        simp only [tCatLast, tRepeat]
        rw [List.getElem_zipWith]
        simp only [List.length_zipWith]
        rw [List.getElem_replicate, hsB]
        have hTb : ((tTranspose01 x_d)[t]).length = B := by
          have h2 := hsliceT
          rwa [List.getD_eq_getElem _ _ htT] at h2
        rw [hTb, min_self]
      rw [tCatLast_getD _ _ t b hinner (by rw [tRepeat, List.length_replicate]; exact htT)
        (by rw [hinnerLen]; exact hb)
        (by rw [getD_tRepeat _ _ t htT, hoB]; exact hb)]
      rw [hinnerD, getD_tRepeat _ _ t htT]
      rw [transpose01_getD x_d t b hbx htx]

/-- Witness for C2 at a concrete input with all three tensors present:
batch 2, time 2, one dynamic feature, one static feature, one basin. -/
theorem gru_forward_concat_order_witness :
    ((concatInputs [[[1], [2]], [[3], [4]]] (some [[5], [6]]) (some [[7], [8]])).getD 1 []).getD 0 [] =
      (([[(1 : ℚ)], [2]] : Mat).getD 1 [])
        ++ ((some [[(5 : ℚ)], [6]] : Option Mat).elim [] fun s => s.getD 0 [])
        ++ ((some [[(7 : ℚ)], [8]] : Option Mat).elim [] fun o => o.getD 0 []) := by
  exact gru_forward_concat_order [[[1], [2]], [[3], [4]]] (some [[5], [6]]) (some [[7], [8]])
    2 2 rfl
    (by intro r hr; simp only [List.mem_cons, List.not_mem_nil, or_false] at hr
        rcases hr with rfl | rfl <;> rfl)
    (by intro s hsx; cases hsx; rfl) (by intro o hox; cases hox; rfl)
    1 0 (by decide) (by decide)

/-- Modelled from the spec: the recurrence of the external single-layer
`torch.nn.GRU`.  The cell's transition is abstracted as `step` (hidden
state and input vector to new hidden state); the hidden states of all batch
elements are advanced in lockstep, one output slice per timestep.  Input
layout `[seq_length, batch, features]`, output layout
`[seq_length, batch, hidden]`. -/
def gruSeq (step : Vec → Vec → Vec) : Mat → List Mat → List Mat
  | _, [] => []
  | hs, xt :: rest =>
    let hs2 := List.zipWith (fun h x => step h x) hs xt
    hs2 :: gruSeq step hs2 rest

/-- Modelled from the spec: `self.gru(input=x_d)` returns the full output
sequence and the final hidden state `h_n` of shape `[1, batch, hidden]`. -/
def nnGRU (step : Vec → Vec → Vec) (h0 : Vec) (x : Ten3) : Ten3 × Ten3 :=
  let B := (x.headD []).length
  let out := gruSeq step (List.replicate B h0) x
  (out, [out.getLastD (List.replicate B h0)])

/-- Modelled from the spec: `nn.Dropout` is an elementwise, shape-preserving
transformation (identity in evaluation mode, scaling/zeroing in training),
abstracted as an arbitrary scalar function applied elementwise. -/
def nnDropout (d : ℚ → ℚ) (x : Ten3) : Ten3 :=
  x.map fun m => m.map fun v => v.map d

/-- Modelled from the spec: the head returned by the external `get_head`
factory maps the hidden representation to a named tensor mapping containing
at least `y_hat`, with a prediction for every timestep: it applies an output
projection `headF` along the feature axis, preserving the leading axes. -/
def headApply (headF : Vec → Vec) (x : Ten3) : List (String × Ten3) :=
  [("y_hat", x.map fun m => m.map headF)]

/-- `pred.update(...)`: Python dict update as an association-list merge in
which the updating entries take precedence. -/
def dictUpdate (d u : List (String × Ten3)) : List (String × Ten3) :=
  d.filter (fun p => !((u.map Prod.fst).contains p.1)) ++ u

/-- Shallow embedding of `GRU.forward`: concatenate the inputs, run the
recurrent cell, transpose the final hidden state to batch-first and store it
under `h_n`, then merge in the head's outputs computed from the dropped-out
full output sequence (transposed to batch-first). -/
def GRU.forward (step : Vec → Vec → Vec) (h0 : Vec) (drop : ℚ → ℚ) (headF : Vec → Vec)
    (data_x_d : Ten3) (data_x_s data_x_one_hot : Option Mat) : List (String × Ten3) :=
  let x_d := concatInputs data_x_d data_x_s data_x_one_hot
  let res := nnGRU step h0 x_d
  let h_n := tTranspose01 res.2
  let pred := [("h_n", h_n)]
  dictUpdate pred (headApply headF (nnDropout drop (tTranspose01 res.1)))

theorem tTranspose01_slice_length (x : Ten3) :
    ∀ m ∈ tTranspose01 x, m.length = x.length := by
  intro m hm
  simp only [tTranspose01, List.mem_map] at hm
  obtain ⟨i, _, rfl⟩ := hm
  simp

theorem tCatLast_slice_length (a b : Ten3) (B : ℕ)
    (ha : ∀ m ∈ a, m.length = B) (hb : ∀ m ∈ b, m.length = B) :
    ∀ m ∈ tCatLast a b, m.length = B := by
  intro m hm
  rw [List.mem_iff_getElem] at hm
  obtain ⟨i, hi, rfl⟩ := hm
  simp only [tCatLast, List.length_zipWith] at hi
  simp only [tCatLast, List.getElem_zipWith, List.length_zipWith]
  rw [ha _ (List.getElem_mem _), hb _ (List.getElem_mem _), min_self]

theorem concatInputs_shape (x_d : Ten3) (x_s x_one_hot : Option Mat) (B T : ℕ)
    (hB : x_d.length = B) (hpos : 0 < B) (hrect : ∀ r ∈ x_d, r.length = T)
    (hs : ∀ s, x_s = some s → s.length = B)
    (ho : ∀ o, x_one_hot = some o → o.length = B) :
    (concatInputs x_d x_s x_one_hot).length = T ∧
      ∀ m ∈ concatInputs x_d x_s x_one_hot, m.length = B := by
  have hhead : (x_d.headD []).length = T := headD_length_of_rect x_d B T hB hpos hrect
  have hTlen : (tTranspose01 x_d).length = T := by rw [length_tTranspose01, hhead]
  have hTslice : ∀ m ∈ tTranspose01 x_d, m.length = B := by
    intro m hm; rw [tTranspose01_slice_length x_d m hm, hB]
  rcases x_s with _ | s
  · rcases x_one_hot with _ | o
    · exact ⟨hTlen, hTslice⟩
    · have hoB : o.length = B := ho o rfl
      constructor
      · simp only [concatInputs, tCatLast, List.length_zipWith, tRepeat,
          List.length_replicate, min_self]
        exact hTlen
      · exact tCatLast_slice_length _ _ B hTslice
          (fun m hm => by rw [List.eq_of_mem_replicate hm, hoB])
  · have hsB : s.length = B := hs s rfl
    rcases x_one_hot with _ | o
    · constructor
      · simp only [concatInputs, tCatLast, List.length_zipWith, tRepeat,
          List.length_replicate, min_self]
        exact hTlen
      · exact tCatLast_slice_length _ _ B hTslice
          (fun m hm => by rw [List.eq_of_mem_replicate hm, hsB])
    · have hoB : o.length = B := ho o rfl
      have hinnerLen :
          (tCatLast (tTranspose01 x_d) (tRepeat (tTranspose01 x_d).length s)).length = T := by
        simp only [tCatLast, List.length_zipWith, tRepeat, List.length_replicate, min_self]
        exact hTlen
      have hinnerSlice :
          ∀ m ∈ tCatLast (tTranspose01 x_d) (tRepeat (tTranspose01 x_d).length s),
            m.length = B :=
        tCatLast_slice_length _ _ B hTslice
          (fun m hm => by rw [List.eq_of_mem_replicate hm, hsB])
      constructor
      · simp only [concatInputs, tCatLast, List.length_zipWith, tRepeat,
          List.length_replicate, min_self]
        simp only [tCatLast, List.length_zipWith, tRepeat, List.length_replicate,
          min_self] at hinnerLen
        exact hinnerLen
      · exact tCatLast_slice_length _ _ B hinnerSlice
          (fun m hm => by rw [List.eq_of_mem_replicate hm, hoB])

theorem gruSeq_length (step : Vec → Vec → Vec) (xs : List Mat) :
    ∀ hs : Mat, (gruSeq step hs xs).length = xs.length := by
  induction xs with
  | nil => intro hs; rfl
  | cons xt rest ih => intro hs; simp [gruSeq, ih]

theorem gruSeq_slice_length (step : Vec → Vec → Vec) (B : ℕ) (xs : List Mat) :
    ∀ hs : Mat, hs.length = B → (∀ xt ∈ xs, xt.length = B) →
      ∀ m ∈ gruSeq step hs xs, m.length = B := by
  induction xs with
  | nil => intro hs _ _ m hm; simp [gruSeq] at hm
  | cons xt rest ih =>
    intro hs hhs hxs m hm
    have hstep : (List.zipWith (fun h x => step h x) hs xt).length = B := by
      rw [List.length_zipWith, hhs, hxs xt (List.mem_cons_self _ _), min_self]
    simp only [gruSeq, List.mem_cons] at hm
    rcases hm with rfl | hm
    · exact hstep
    · exact ih _ hstep (fun u hu => hxs u (List.mem_cons_of_mem _ hu)) m hm

/-- C3: the forward transformation's output mapping contains `y_hat`,
produced by applying dropout to the recurrent cell's full (batch-first)
output sequence and passing it to the head, and `y_hat`'s leading two axes
equal the batch size and sequence length of the input `x_d`: a prediction
exists for every timestep. -/
theorem gru_forward_y_hat_shape (step : Vec → Vec → Vec) (h0 : Vec) (drop : ℚ → ℚ)
    (headF : Vec → Vec) (x_d : Ten3) (x_s x_one_hot : Option Mat) (B T : ℕ)
    (hB : x_d.length = B) (hpos : 0 < B) (hrect : ∀ r ∈ x_d, r.length = T) (hTpos : 0 < T)
    (hs : ∀ s, x_s = some s → s.length = B)
    (ho : ∀ o, x_one_hot = some o → o.length = B) :
    ∃ yh,
      (GRU.forward step h0 drop headF x_d x_s x_one_hot).lookup "y_hat" = some yh ∧
      yh = (nnDropout drop
              (tTranspose01 (nnGRU step h0 (concatInputs x_d x_s x_one_hot)).1)).map
            (fun m => m.map headF) ∧
      yh.length = B ∧ ∀ r ∈ yh, r.length = T := by
  obtain ⟨hclen, hcslice⟩ := concatInputs_shape x_d x_s x_one_hot B T hB hpos hrect hs ho
  set xcat := concatInputs x_d x_s x_one_hot with hxcat
  set out := (nnGRU step h0 xcat).1 with hout
  have houtdef : out = gruSeq step (List.replicate (xcat.headD []).length h0) xcat := rfl
  have hBc : (xcat.headD []).length = B := headD_length_of_rect xcat T B hclen hTpos hcslice
  have houtlen : out.length = T := by rw [houtdef, gruSeq_length, hclen]
  have houtslice : ∀ m ∈ out, m.length = B := by
    rw [houtdef]
    exact gruSeq_slice_length step B xcat _ (by rw [List.length_replicate, hBc]) hcslice
  have htlen : (tTranspose01 out).length = B := by
    rw [length_tTranspose01, headD_length_of_rect out T B houtlen hTpos houtslice]
  have htslice : ∀ m ∈ tTranspose01 out, m.length = T := by
    intro m hm; rw [tTranspose01_slice_length out m hm, houtlen]
  refine ⟨(nnDropout drop (tTranspose01 out)).map (fun m => m.map headF), ?_, rfl, ?_, ?_⟩
  · simp [GRU.forward, dictUpdate, headApply, List.lookup]
  · simp [nnDropout, htlen]
  · intro r hr
    simp only [nnDropout, List.map_map, List.mem_map] at hr
    obtain ⟨m, hm, rfl⟩ := hr
    simp only [Function.comp, List.length_map]
    exact htslice m hm

/-- Witness for C3 at a concrete input: batch 1, time 1, one feature, no
static inputs, identity dropout and head. -/
theorem gru_forward_y_hat_shape_witness :
    ∃ yh,
      (GRU.forward (fun _ x => x) [] id (fun v => v) [[[1]]] none none).lookup "y_hat" =
        some yh ∧
      yh = (nnDropout id
              (tTranspose01 (nnGRU (fun _ x => x) [] (concatInputs [[[1]]] none none)).1)).map
            (fun m => m.map (fun v => v)) ∧
      yh.length = 1 ∧ ∀ r ∈ yh, r.length = 1 := by
  exact gru_forward_y_hat_shape (fun _ x => x) [] id (fun v => v) [[[1]]] none none 1 1
    rfl (by decide)
    (by intro r hr; simp only [List.mem_cons, List.not_mem_nil, or_false] at hr; rw [hr]; rfl)
    (by decide)
    (by intro s hsx; cases hsx) (by intro o hox; cases hox)

/-- A cell of an attribute or time series table: raw text as parsed from the
tab-delimited file, a numeric value produced by `pd.to_numeric`, or a
temporal value produced by `pd.to_datetime`. -/
inductive Cell where
  | str (s : String)
  | num (q : ℚ)
  | date (t : ℤ)
deriving DecidableEq, Repr

/-- A pandas `DataFrame`, column-oriented: row labels (`index`) plus named
columns, each a list of cells aligned with `index`. -/
structure DF where
  index : List String
  cols : List (String × List Cell)
deriving DecidableEq, Repr

/-- `df.columns`. -/
def DF.colNames (df : DF) : List String := df.cols.map Prod.fst

/-- `df.transpose()`: rows become columns and columns become rows. -/
def DF.transpose (df : DF) : DF :=
  { index := df.colNames
    cols := (List.range df.index.length).map fun i =>
      (df.index.getD i "", df.cols.map fun c => c.2.getD i (.str "")) }

/-- `df.drop(labels, axis=0)` for labels taken from the index: keep exactly
the row positions whose label is not listed. -/
def DF.dropRows (df : DF) (labels : List String) : DF :=
  let keep := (List.range df.index.length).filter fun i =>
    !(labels.contains (df.index.getD i ""))
  { index := keep.map fun i => df.index.getD i ""
    cols := df.cols.map fun c => (c.1, keep.map fun i => c.2.getD i (.str "")) }

/-- `df.drop(names, axis=1)`: remove every column whose name is listed. -/
def DF.dropCols (df : DF) (names : List String) : DF :=
  { df with cols := df.cols.filter fun c => !(names.contains c.1) }

/-- Whether `pd.to_numeric` can convert one cell, with the element-level
numeric parser abstracted as `pn`. -/
def cellNumOk (pn : String → Option ℚ) : Cell → Bool
  | .str s => (pn s).isSome
  | .num _ => true
  | .date _ => false

/-- Convert one cell to numeric if its text parses, else leave it alone. -/
def cellNum (pn : String → Option ℚ) : Cell → Cell
  | .str s =>
    match pn s with
    | some q => .num q
    | none => .str s
  | c => c

/-- `pd.to_numeric(column, errors='ignore')`: all-or-nothing per column —
if every cell converts the column is converted, otherwise it is returned
unchanged. -/
def to_numeric_ignore (pn : String → Option ℚ) (cs : List Cell) : List Cell :=
  if cs.all (cellNumOk pn) then cs.map (cellNum pn) else cs

/-- `df.apply(pd.to_numeric, errors='ignore')`: the column-wise conversion
applied to every column. -/
def DF.applyToNumeric (df : DF) (pn : String → Option ℚ) : DF :=
  { df with cols := df.cols.map fun c => (c.1, to_numeric_ignore pn c.2) }

/-- `pd.to_datetime(column)` with the default `errors='raise'`: the whole
column converts to temporal values, or the call fails.  The element-level
datetime parser is abstracted as `pdt`. -/
def toDatetimeCells (pdt : Cell → Option ℤ) (cs : List Cell) : Option (List Cell) :=
  if cs.all (fun c => (pdt c).isSome) then
    some (cs.map (fun c => Cell.date ((pdt c).getD 0)))
  else
    none

/-- The exceptions the dataset loaders can raise: `FileNotFoundError` (both
the bespoke raise and the csv reader's), `KeyError` for a missing column,
and `ValueError` from `pd.to_datetime`. -/
inductive LoadError where
  | fileNotFound (msg : String)
  | keyError (msg : String)
  | valueError (msg : String)
deriving DecidableEq, Repr

/-- `df["c"] = pd.to_datetime(df["c"])`: reading a missing column is a
`KeyError`; an unconvertible column is a `ValueError`; otherwise every
column named `c` is replaced by the converted cells. -/
def setToDatetime (pdt : Cell → Option ℤ) (df : DF) (c : String) : Except LoadError DF :=
  match df.cols.find? (fun p => p.1 == c) with
  | none => .error (.keyError c)
  | some col =>
    match toDatetimeCells pdt col.2 with
    | none => .error (.valueError ("to_datetime failed on column " ++ c))
    | some ds => .ok { df with cols := df.cols.map fun p => if p.1 == c then (p.1, ds) else p }

/-- The file system as the loaders see it: a set of directories and a map
from paths to tables.  Text parsing by the csv reader is abstracted: a
stored file is the table that reading it yields. -/
structure World where
  dirs : List String
  files : List (String × DF)
deriving DecidableEq

/-- `Path.is_dir()`. -/
def World.isDir (w : World) (p : String) : Bool := w.dirs.contains p

/-- `pd.read_csv(path, ...)`: `none` when the file does not exist. -/
def World.readCsv (w : World) (path : String) : Option DF :=
  (w.files.find? (fun f => f.1 == path)).map Prod.snd

/-- Result of a loader call: the value or exception, the file system after
the call, and the trace of file reads the call attempted. -/
structure LoadOut (α : Type) where
  res : Except LoadError α
  world : World
  trace : List String

/-- Modelled from the spec: the message of the `FileNotFoundError` the
external csv reader raises for a missing file (a generic OS message naming
the path, carrying no remediation text). -/
def pandasMissingFileMsg (path : String) : String :=
  "[Errno 2] No such file or directory: " ++ path

/-- The remediation message `load_camels_cl_timeseries` raises when the
`preprocessed` directory is missing, exactly as joined in the source. -/
def camelsClRemediationMsg (preprocessed_dir : String) : String :=
  "No preprocessed data directory found at " ++ preprocessed_dir ++
    ". Use preprocessed_camels_cl_dataset in neuralhydrology.datasetzoo.camelscl to preprocess the CAMELS CL data set once into per-basin files."

/-- Shallow embedding of `load_camels_cl_timeseries`: check that the
`preprocessed` subdirectory exists (raising the remediation
`FileNotFoundError` if not, before any file read), then read the per-basin
csv file `{basin}.csv`. -/
def load_camels_cl_timeseries (w : World) (data_dir basin : String) : LoadOut DF :=
  let preprocessed_dir := data_dir ++ "/preprocessed"
  if !(w.isDir preprocessed_dir) then
    ⟨.error (.fileNotFound (camelsClRemediationMsg preprocessed_dir)), w, []⟩
  else
    let basin_file := preprocessed_dir ++ "/" ++ basin ++ ".csv"
    match w.readCsv basin_file with
    | none =>
      ⟨.error (.fileNotFound (pandasMissingFileMsg basin_file)), w, ["read " ++ basin_file]⟩
    | some df => ⟨.ok df, w, ["read " ++ basin_file]⟩

/-- Shallow embedding of `load_camels_cl_attributes`: read the single
tab-delimited attributes file, transpose it so rows become basins, apply the
tolerant numeric conversion to every column, convert the two record-period
columns to temporal type, and, if a basin restriction list is supplied, drop
the rows of basins not in that list. -/
def load_camels_cl_attributes (pn : String → Option ℚ) (pdt : Cell → Option ℤ)
    (w : World) (data_dir : String) (basins : List String) : LoadOut DF :=
  let attributes_file := data_dir ++ "/1_CAMELScl_attributes.txt"
  match w.readCsv attributes_file with
  | none =>
    ⟨.error (.fileNotFound (pandasMissingFileMsg attributes_file)), w,
      ["read " ++ attributes_file]⟩
  | some raw =>
    let df := raw.transpose
    let df := df.applyToNumeric pn
    match setToDatetime pdt df "record_period_start" with
    | .error e => ⟨.error e, w, ["read " ++ attributes_file]⟩
    | .ok df =>
      match setToDatetime pdt df "record_period_end" with
      | .error e => ⟨.error e, w, ["read " ++ attributes_file]⟩
      | .ok df =>
        if basins ≠ [] then
          let drop_basins := df.index.filter fun b => !(basins.contains b)
          ⟨.ok (df.dropRows drop_basins), w, ["read " ++ attributes_file]⟩
        else
          ⟨.ok df, w, ["read " ++ attributes_file]⟩

/-- Shallow embedding of `CamelsCL._load_attributes`: with no configured
camels attributes the method returns `None` without touching the file
system; otherwise it loads the attribute table and drops every column not
named in the configuration. -/
def CamelsCL.load_attributes (pn : String → Option ℚ) (pdt : Cell → Option ℤ)
    (w : World) (cfg : Config) (basins : List String) : LoadOut (Option DF) :=
  if cfg.camels_attributes ≠ [] then
    match load_camels_cl_attributes pn pdt w cfg.data_dir basins with
    | ⟨.error e, w2, tr⟩ => ⟨.error e, w2, tr⟩
    | ⟨.ok df, w2, tr⟩ =>
      let drop_cols := df.colNames.filter fun c => !(cfg.camels_attributes.contains c)
      ⟨.ok (some (df.dropCols drop_cols)), w2, tr⟩
  else
    ⟨.ok none, w, []⟩

/-- `needle` occurs verbatim inside `hay`. -/
def strContains (hay needle : String) : Prop :=
  ∃ p q, hay.data = p ++ needle.data ++ q

/-- C4: when the configuration lists no camels attributes,
`CamelsCL._load_attributes` returns the absent result `None` (no file is
even read), which is distinguishable from a table with zero columns. -/
theorem camelscl_load_attributes_empty_config_none (pn : String → Option ℚ)
    (pdt : Cell → Option ℤ) (w : World) (cfg : Config) (basins : List String)
    (h : cfg.camels_attributes = []) :
    CamelsCL.load_attributes pn pdt w cfg basins = ⟨.ok none, w, []⟩ ∧
    ∀ df : DF, (Except.ok (some df) : Except LoadError (Option DF)) ≠ Except.ok none := by
  constructor
  · simp [CamelsCL.load_attributes, h]
  · intro df hc
    simp at hc

/-- Witness for C4: a configuration with an empty attribute list. -/
theorem camelscl_load_attributes_empty_config_none_witness :
    CamelsCL.load_attributes (fun _ => none) (fun _ => none) ⟨[], []⟩
        { dynamic_inputs := ["p"], static_inputs := [], hydroatlas_attributes := []
          camels_attributes := [], use_basin_id_encoding := false, number_of_basins := 0
          head := "regression", hidden_size := 8, output_dropout := 0
          model := "gru", use_frequencies := ["1D"], data_dir := "data" } ["B1"] =
      ⟨.ok none, ⟨[], []⟩, []⟩ := by
  exact (camelscl_load_attributes_empty_config_none _ _ _ _ _ rfl).1

/-- C6: when the `preprocessed` subdirectory of the data directory does not
exist, the time series loader fails with the remediation
`FileNotFoundError` before attempting any file read; the message contains
the word "preprocessed" and names the preprocessing function
`preprocessed_camels_cl_dataset`. -/
theorem camelscl_timeseries_missing_preprocessed_dir (w : World) (data_dir basin : String)
    (h : w.isDir (data_dir ++ "/preprocessed") = false) :
    load_camels_cl_timeseries w data_dir basin =
      ⟨.error (.fileNotFound (camelsClRemediationMsg (data_dir ++ "/preprocessed"))), w, []⟩ ∧
    strContains (camelsClRemediationMsg (data_dir ++ "/preprocessed")) "preprocessed" ∧
    strContains (camelsClRemediationMsg (data_dir ++ "/preprocessed"))
      "preprocessed_camels_cl_dataset" := by
  refine ⟨?_, ?_, ?_⟩
  · simp [load_camels_cl_timeseries, h]
  · refine ⟨("No " : String).data,
      (" data directory found at " : String).data ++ (data_dir ++ "/preprocessed").data ++
        (". Use preprocessed_camels_cl_dataset in neuralhydrology.datasetzoo.camelscl to preprocess the CAMELS CL data set once into per-basin files." : String).data, ?_⟩
    have hlit : ("No preprocessed data directory found at " : String).data =
        ("No " : String).data ++ ("preprocessed" : String).data ++
          (" data directory found at " : String).data := by decide
    rw [camelsClRemediationMsg]
    simp only [String.data_append, hlit]
    simp [List.append_assoc]
  · refine ⟨("No preprocessed data directory found at " : String).data ++
        (data_dir ++ "/preprocessed").data ++ (". Use " : String).data,
      (" in neuralhydrology.datasetzoo.camelscl to preprocess the CAMELS CL data set once into per-basin files." : String).data, ?_⟩
    have hlit : ((". Use preprocessed_camels_cl_dataset in neuralhydrology.datasetzoo.camelscl to preprocess the CAMELS CL data set once into per-basin files.") : String).data =
        (". Use " : String).data ++ ("preprocessed_camels_cl_dataset" : String).data ++
          (" in neuralhydrology.datasetzoo.camelscl to preprocess the CAMELS CL data set once into per-basin files." : String).data := by decide
    rw [camelsClRemediationMsg]
    simp only [String.data_append, hlit]
    simp [List.append_assoc]

/-- Witness for C6: an empty file system, so the directory is missing. -/
theorem camelscl_timeseries_missing_preprocessed_dir_witness :
    load_camels_cl_timeseries ⟨[], []⟩ "data" "G1" =
      ⟨.error (.fileNotFound (camelsClRemediationMsg ("data" ++ "/preprocessed"))),
        ⟨[], []⟩, []⟩ ∧
    strContains (camelsClRemediationMsg ("data" ++ "/preprocessed")) "preprocessed" ∧
    strContains (camelsClRemediationMsg ("data" ++ "/preprocessed"))
      "preprocessed_camels_cl_dataset" := by
  exact camelscl_timeseries_missing_preprocessed_dir ⟨[], []⟩ "data" "G1" rfl

/-- C10 (implicit): with the `preprocessed` directory present but the
per-basin file `{basin}.csv` absent, the loader fails with the csv reader's
generic file-read error — an error that attempts the read and whose message
is never the remediation message. -/
theorem camelscl_timeseries_missing_basin_file (w : World) (data_dir basin : String)
    (hdir : w.isDir (data_dir ++ "/preprocessed") = true)
    (hfile : w.readCsv (data_dir ++ "/preprocessed" ++ "/" ++ basin ++ ".csv") = none) :
    load_camels_cl_timeseries w data_dir basin =
      ⟨.error (.fileNotFound
          (pandasMissingFileMsg (data_dir ++ "/preprocessed" ++ "/" ++ basin ++ ".csv"))),
        w, ["read " ++ (data_dir ++ "/preprocessed" ++ "/" ++ basin ++ ".csv")]⟩ ∧
    ∀ pre : String,
      pandasMissingFileMsg (data_dir ++ "/preprocessed" ++ "/" ++ basin ++ ".csv") ≠
        camelsClRemediationMsg pre := by
  constructor
  · simp [load_camels_cl_timeseries, hdir, hfile]
  · intro pre heq
    have hd := congrArg String.data heq
    rw [pandasMissingFileMsg, camelsClRemediationMsg] at hd
    simp only [String.data_append] at hd
    simp only [List.cons_append, List.append_assoc] at hd
    injection hd with hc _
    exact absurd hc (by decide)

/-- Witness for C10: the directory exists but no per-basin file does. -/
theorem camelscl_timeseries_missing_basin_file_witness :
    load_camels_cl_timeseries ⟨["data/preprocessed"], []⟩ "data" "G1" =
      ⟨.error (.fileNotFound
          (pandasMissingFileMsg ("data" ++ "/preprocessed" ++ "/" ++ "G1" ++ ".csv"))),
        ⟨["data/preprocessed"], []⟩,
        ["read " ++ ("data" ++ "/preprocessed" ++ "/" ++ "G1" ++ ".csv")]⟩ ∧
    ∀ pre : String,
      pandasMissingFileMsg ("data" ++ "/preprocessed" ++ "/" ++ "G1" ++ ".csv") ≠
        camelsClRemediationMsg pre := by
  exact camelscl_timeseries_missing_basin_file ⟨["data/preprocessed"], []⟩ "data" "G1" rfl rfl

/-- C9: the attribute loader mutates neither the file system nor any shared
state: its resulting world is the input world, and calling it again on that
world with the same arguments yields the identical output (same table, same
world, same trace). -/
theorem camelscl_attributes_idempotent (pn : String → Option ℚ) (pdt : Cell → Option ℤ)
    (w : World) (data_dir : String) (basins : List String) :
    (load_camels_cl_attributes pn pdt w data_dir basins).world = w ∧
    load_camels_cl_attributes pn pdt
        (load_camels_cl_attributes pn pdt w data_dir basins).world data_dir basins =
      load_camels_cl_attributes pn pdt w data_dir basins := by
  have hw : (load_camels_cl_attributes pn pdt w data_dir basins).world = w := by
    unfold load_camels_cl_attributes
    rcases hrc : w.readCsv (data_dir ++ "/1_CAMELScl_attributes.txt") with _ | raw
    · simp [hrc]
    · simp only [hrc]
      rcases h1 : setToDatetime pdt (raw.transpose.applyToNumeric pn) "record_period_start"
        with e | d1
      · simp [h1]
      · simp only [h1]
        rcases h2 : setToDatetime pdt d1 "record_period_end" with e | d2
        · simp [h2]
        · simp only [h2]
          by_cases hb : basins ≠ [] <;> simp [hb]
  exact ⟨hw, by rw [hw]⟩

/-- C5: with a non-empty configured attribute list, and the attribute table
loaded with a column superset of that list, `CamelsCL._load_attributes`
returns a table whose columns are exactly the configured attributes: every
other column is dropped, every configured column kept. -/
theorem camelscl_load_attributes_filters_columns (pn : String → Option ℚ)
    (pdt : Cell → Option ℤ) (w : World) (cfg : Config) (basins : List String)
    (df : DF) (tr : List String)
    (hattrs : cfg.camels_attributes ≠ [])
    (hload : load_camels_cl_attributes pn pdt w cfg.data_dir basins = ⟨.ok df, w, tr⟩)
    (hsup : ∀ a ∈ cfg.camels_attributes, a ∈ df.colNames) :
    ∃ res, CamelsCL.load_attributes pn pdt w cfg basins = ⟨.ok (some res), w, tr⟩ ∧
      ∀ c, c ∈ res.colNames ↔ c ∈ cfg.camels_attributes := by
  refine ⟨df.dropCols (df.colNames.filter fun c => !(cfg.camels_attributes.contains c)),
    ?_, ?_⟩
  · unfold CamelsCL.load_attributes
    rw [if_pos hattrs, hload]
  · have hD : ∀ x, x ∈ (df.cols.map Prod.fst).filter
          (fun c => !(cfg.camels_attributes.contains c)) ↔
        x ∈ df.cols.map Prod.fst ∧ x ∉ cfg.camels_attributes := by
      intro x
      rw [List.mem_filter]
      constructor
      · rintro ⟨h1, h2⟩
        refine ⟨h1, fun hmem => ?_⟩
        have hc : cfg.camels_attributes.contains x = true := List.elem_iff.mpr hmem
        rw [hc] at h2
        exact absurd h2 (by decide)
      · rintro ⟨h1, h2⟩
        refine ⟨h1, ?_⟩
        cases hb : cfg.camels_attributes.contains x with
        | false => rfl
        | true => exact absurd (List.elem_iff.mp hb) h2
    have hDC : ∀ x,
        x ∈ (df.dropCols
            ((df.cols.map Prod.fst).filter
              fun c => !(cfg.camels_attributes.contains c))).cols.map Prod.fst ↔
          x ∈ df.cols.map Prod.fst ∧
            x ∉ (df.cols.map Prod.fst).filter
              (fun c => !(cfg.camels_attributes.contains c)) := by
      intro x
      constructor
      · intro hx
        simp only [DF.dropCols, List.mem_map, List.mem_filter] at hx
        obtain ⟨e, ⟨he, hp⟩, rfl⟩ := hx
        refine ⟨List.mem_map_of_mem Prod.fst he, fun hmem => ?_⟩
        have hc : ((df.cols.map Prod.fst).filter
            (fun c => !(cfg.camels_attributes.contains c))).contains e.1 = true :=
          List.elem_iff.mpr hmem
        rw [hc] at hp
        exact absurd hp (by decide)
      · rintro ⟨hx, hnd⟩
        rw [List.mem_map] at hx
        obtain ⟨e, he, rfl⟩ := hx
        simp only [DF.dropCols, List.mem_map, List.mem_filter]
        refine ⟨e, ⟨he, ?_⟩, rfl⟩
        cases hb : ((df.cols.map Prod.fst).filter
            (fun c => !(cfg.camels_attributes.contains c))).contains e.1 with
        | false => rfl
        | true => exact absurd (List.elem_iff.mp hb) hnd
    intro c
    show c ∈ (df.dropCols
        ((df.cols.map Prod.fst).filter
          fun c => !(cfg.camels_attributes.contains c))).cols.map Prod.fst ↔
      c ∈ cfg.camels_attributes
    rw [hDC c]
    constructor
    · rintro ⟨h1, h2⟩
      by_contra hnot
      exact h2 ((hD c).mpr ⟨h1, hnot⟩)
    · intro hc
      exact ⟨hsup c hc, fun hmem => ((hD c).mp hmem).2 hc⟩

/-- Witness for C5: a fixture file with columns
attr_a, attr_b, record_period_start, record_period_end (a superset of the
configured list attr_a). -/
theorem camelscl_load_attributes_filters_columns_witness :
    ∃ res, CamelsCL.load_attributes (fun _ => (none : Option ℚ))
        (fun c => match c with
          | Cell.str s => if s = "d1" then some 0 else if s = "d2" then some 1 else none
          | _ => (none : Option ℤ))
        ⟨[], [("data/1_CAMELScl_attributes.txt",
          { index := ["attr_a", "attr_b", "record_period_start", "record_period_end"]
            cols := [("B1", [.str "x", .str "y", .str "d1", .str "d2"])] })]⟩
        { dynamic_inputs := ["p"], static_inputs := [], hydroatlas_attributes := []
          camels_attributes := ["attr_a"], use_basin_id_encoding := false
          number_of_basins := 0, head := "regression", hidden_size := 8
          output_dropout := 0, model := "gru", use_frequencies := ["1D"]
          data_dir := "data" } [] =
      ⟨.ok (some res),
        ⟨[], [("data/1_CAMELScl_attributes.txt",
          { index := ["attr_a", "attr_b", "record_period_start", "record_period_end"]
            cols := [("B1", [.str "x", .str "y", .str "d1", .str "d2"])] })]⟩,
        ["read data/1_CAMELScl_attributes.txt"]⟩ ∧
      ∀ c, c ∈ res.colNames ↔ c ∈ ["attr_a"] := by
  exact camelscl_load_attributes_filters_columns _ _ _ _ []
    { index := ["B1"]
      cols := [("attr_a", [.str "x"]), ("attr_b", [.str "y"]),
        ("record_period_start", [.date 0]), ("record_period_end", [.date 1])] }
    ["read data/1_CAMELScl_attributes.txt"]
    (by simp) rfl (by decide)

theorem setToDatetime_ok_cols (pdt : Cell → Option ℤ) (df res : DF) (c : String)
    (h : setToDatetime pdt df c = .ok res) :
    ∃ ds, (∀ cell ∈ ds, ∃ t, cell = Cell.date t) ∧
      res.index = df.index ∧
      res.cols = df.cols.map fun p => if p.1 == c then (p.1, ds) else p := by
  unfold setToDatetime at h
  split at h
  · exact absurd h (by simp)
  · rename_i col hf
    unfold toDatetimeCells at h
    split at h
    · exact absurd h (by simp)
    · rename_i ds hds
      have hinj := Except.ok.inj h
      have hdsall : ∀ cell ∈ ds, ∃ t, cell = Cell.date t := by
        split at hds
        · have hdseq := Option.some.inj hds
          intro cell hcell
          rw [← hdseq] at hcell
          rw [List.mem_map] at hcell
          obtain ⟨x, _, rfl⟩ := hcell
          exact ⟨_, rfl⟩
        · exact absurd hds (by simp)
      refine ⟨ds, hdsall, ?_, ?_⟩
      · rw [← hinj]
      · rw [← hinj]

/-- C8: the attribute loader never fails on non-numeric attribute values:
for any attributes file (with convertible record-period columns), loading
succeeds; a column whose cells do not all parse as numeric passes through
unchanged, a column whose cells all parse is converted, and the two
record-period columns hold temporal values in the result. -/
theorem camelscl_attributes_tolerant_numeric (pn : String → Option ℚ)
    (pdt : Cell → Option ℤ) (w : World) (data_dir : String) (raw df1 df2 : DF)
    (hread : w.readCsv (data_dir ++ "/1_CAMELScl_attributes.txt") = some raw)
    (h1 : setToDatetime pdt (raw.transpose.applyToNumeric pn) "record_period_start" = .ok df1)
    (h2 : setToDatetime pdt df1 "record_period_end" = .ok df2) :
    load_camels_cl_attributes pn pdt w data_dir [] =
      ⟨.ok df2, w, ["read " ++ (data_dir ++ "/1_CAMELScl_attributes.txt")]⟩ ∧
    (∀ j, j < raw.transpose.cols.length →
      (raw.transpose.cols.getD j ("", [])).1 ≠ "record_period_start" →
      (raw.transpose.cols.getD j ("", [])).1 ≠ "record_period_end" →
      ((raw.transpose.cols.getD j ("", [])).2.all (cellNumOk pn) = false →
        df2.cols.getD j ("", []) = raw.transpose.cols.getD j ("", [])) ∧
      ((raw.transpose.cols.getD j ("", [])).2.all (cellNumOk pn) = true →
        df2.cols.getD j ("", []) =
          ((raw.transpose.cols.getD j ("", [])).1,
            (raw.transpose.cols.getD j ("", [])).2.map (cellNum pn)))) ∧
    (∀ n cs, (n, cs) ∈ df2.cols →
      n = "record_period_start" ∨ n = "record_period_end" →
      ∀ cell ∈ cs, ∃ t, cell = Cell.date t) := by
  obtain ⟨ds1, hds1, hidx1, hcols1⟩ :=
    setToDatetime_ok_cols pdt (raw.transpose.applyToNumeric pn) df1 "record_period_start" h1
  obtain ⟨ds2, hds2, hidx2, hcols2⟩ :=
    setToDatetime_ok_cols pdt df1 df2 "record_period_end" h2
  refine ⟨?_, ?_, ?_⟩
  · unfold load_camels_cl_attributes
    simp only [hread, h1, h2]
    simp
  · intro j hj hn1 hn2
    have hlenN : (raw.transpose.applyToNumeric pn).cols.length =
        raw.transpose.cols.length := by
      simp [DF.applyToNumeric]
    have hjN : j < (raw.transpose.applyToNumeric pn).cols.length := by
      rw [hlenN]; exact hj
    have hj1m : j < ((raw.transpose.applyToNumeric pn).cols.map
        (fun p => if p.1 == "record_period_start" then (p.1, ds1) else p)).length := by
      simpa using hjN
    have hj1 : j < df1.cols.length := by rw [hcols1]; exact hj1m
    have hj2m : j < (df1.cols.map
        (fun p => if p.1 == "record_period_end" then (p.1, ds2) else p)).length := by
      simpa using hj1
    have hgetN : (raw.transpose.applyToNumeric pn).cols.getD j ("", []) =
        ((raw.transpose.cols.getD j ("", [])).1,
          to_numeric_ignore pn (raw.transpose.cols.getD j ("", [])).2) := by
      rw [List.getD_eq_getElem _ _ hjN]
      simp only [DF.applyToNumeric, List.getElem_map]
      rw [List.getD_eq_getElem _ _ hj]
    have hget1 : df1.cols.getD j ("", []) =
        (fun p => if p.1 == "record_period_start" then (p.1, ds1) else p)
          ((raw.transpose.applyToNumeric pn).cols.getD j ("", [])) := by
      conv_lhs => rw [hcols1]
      rw [List.getD_eq_getElem _ _ hj1m, List.getElem_map,
        List.getD_eq_getElem _ _ hjN]
    have hget2 : df2.cols.getD j ("", []) =
        (fun p => if p.1 == "record_period_end" then (p.1, ds2) else p)
          (df1.cols.getD j ("", [])) := by
      conv_lhs => rw [hcols2]
      rw [List.getD_eq_getElem _ _ hj2m, List.getElem_map,
        List.getD_eq_getElem _ _ hj1]
    have hne1 : ((raw.transpose.cols.getD j ("", [])).1 == "record_period_start") = false :=
      beq_eq_false_iff_ne.mpr hn1
    have hne2 : ((raw.transpose.cols.getD j ("", [])).1 == "record_period_end") = false :=
      beq_eq_false_iff_ne.mpr hn2
    have hfinal : df2.cols.getD j ("", []) =
        ((raw.transpose.cols.getD j ("", [])).1,
          to_numeric_ignore pn (raw.transpose.cols.getD j ("", [])).2) := by
      rw [hget2, hget1, hgetN]
      simp only [hne1, hne2, Bool.false_eq_true, if_false]
    constructor
    · intro hfalse
      rw [hfinal]
      rw [to_numeric_ignore, hfalse]
      simp
    · intro htrue
      rw [hfinal]
      rw [to_numeric_ignore, htrue]
      simp
  · intro n cs hmem hdisj cell hcell
    rw [hcols2, List.mem_map] at hmem
    obtain ⟨e, he1, heq⟩ := hmem
    cases hbe : e.1 == "record_period_end" with
    | true =>
      rw [hbe] at heq
      rw [if_pos rfl] at heq
      have hcs : ds2 = cs := congrArg Prod.snd heq
      exact hds2 cell (hcs ▸ hcell)
    | false =>
      rw [hbe] at heq
      rw [if_neg (by simp)] at heq
      rcases hdisj with hn | hn
      · rw [hcols1, List.mem_map] at he1
        obtain ⟨e2, he2, heq2⟩ := he1
        cases hbe2 : e2.1 == "record_period_start" with
        | true =>
          rw [hbe2] at heq2
          rw [if_pos rfl] at heq2
          have hcs : ds1 = cs := by
            have := heq2.trans heq
            exact congrArg Prod.snd this
          exact hds1 cell (hcs ▸ hcell)
        | false =>
          rw [hbe2] at heq2
          rw [if_neg (by simp)] at heq2
          exfalso
          have hfst : e2.1 = n := by
            have := heq2.trans heq
            exact congrArg Prod.fst this
          rw [hfst, hn] at hbe2
          simp at hbe2
      · exfalso
        have hfst : e.1 = n := congrArg Prod.fst heq
        rw [hfst, hn] at hbe
        simp at hbe

/-- Witness for C8: a fixture file mixing a non-numeric attribute column
with the two date-range columns; loading succeeds. -/
theorem camelscl_attributes_tolerant_numeric_witness :
    load_camels_cl_attributes (fun _ => (none : Option ℚ))
        (fun c => match c with
          | Cell.str s => if s = "d1" then some 0 else if s = "d2" then some 1 else none
          | _ => (none : Option ℤ))
        ⟨[], [("data/1_CAMELScl_attributes.txt",
          { index := ["attr_a", "attr_b", "record_period_start", "record_period_end"]
            cols := [("B1", [.str "x", .str "y", .str "d1", .str "d2"])] })]⟩
        "data" [] =
      ⟨.ok { index := ["B1"]
             cols := [("attr_a", [.str "x"]), ("attr_b", [.str "y"]),
               ("record_period_start", [.date 0]), ("record_period_end", [.date 1])] },
        ⟨[], [("data/1_CAMELScl_attributes.txt",
          { index := ["attr_a", "attr_b", "record_period_start", "record_period_end"]
            cols := [("B1", [.str "x", .str "y", .str "d1", .str "d2"])] })]⟩,
        ["read " ++ ("data" ++ "/1_CAMELScl_attributes.txt")]⟩ := by
  exact (camelscl_attributes_tolerant_numeric (fun _ => (none : Option ℚ))
    (fun c => match c with
      | Cell.str s => if s = "d1" then some 0 else if s = "d2" then some 1 else none
      | _ => (none : Option ℤ))
    ⟨[], [("data/1_CAMELScl_attributes.txt",
      { index := ["attr_a", "attr_b", "record_period_start", "record_period_end"]
        cols := [("B1", [.str "x", .str "y", .str "d1", .str "d2"])] })]⟩
    "data"
    { index := ["attr_a", "attr_b", "record_period_start", "record_period_end"]
      cols := [("B1", [.str "x", .str "y", .str "d1", .str "d2"])] }
    { index := ["B1"]
      cols := [("attr_a", [.str "x"]), ("attr_b", [.str "y"]),
        ("record_period_start", [.date 0]), ("record_period_end", [.str "d2"])] }
    { index := ["B1"]
      cols := [("attr_a", [.str "x"]), ("attr_b", [.str "y"]),
        ("record_period_start", [.date 0]), ("record_period_end", [.date 1])] }
    rfl rfl rfl).1
